import Mathlib

/-!
Shallow embedding of `dxf_generator.py` (class `DXFGenerator`).

Modelling conventions:
* Python floats are modelled as exact rationals `ℚ` (a Python float is a
  rational number; rounding is not relevant to any claim checked here).
* The ezdxf document/modelspace is modelled by the list `GenState.msp` of
  entities the library has created, together with the trace `GenState.issued`
  of entity-creation calls the wrapper has issued to the library (a call is
  traced whether or not the library accepts it).
* The wrapped libraries are outside this repository; whether a given
  entity-creation call succeeds is abstracted by an `Oracle`.  A rejected
  call models the library raising, which in Python propagates out of the
  wrapper method; this is modelled by returning `Except.error` together with
  the state as it is at the moment of the raise.
* Python exceptions are modelled by `Except PyError`; `PyError.indexError`
  marks an `IndexError` raised by the wrapper's own indexing expressions
  (`points[0]` / `points[-1]`), `PyError.libraryError` an exception raised
  inside a wrapped library call.
-/

/-- ACI color constant `ezdxf.colors.BLACK`. -/
def colors.BLACK : Nat := 0

/-- ACI color constant `ezdxf.colors.RED`. -/
def colors.RED : Nat := 1

/-- ACI color constant `ezdxf.colors.YELLOW`. -/
def colors.YELLOW : Nat := 2

/-- ACI color constant `ezdxf.colors.GREEN`. -/
def colors.GREEN : Nat := 3

/-- ACI color constant `ezdxf.colors.CYAN`. -/
def colors.CYAN : Nat := 4

/-- ACI color constant `ezdxf.colors.BLUE`. -/
def colors.BLUE : Nat := 5

/-- ACI color constant `ezdxf.colors.MAGENTA`. -/
def colors.MAGENTA : Nat := 6

/-- ACI color constant `ezdxf.colors.WHITE`, the default color of every
primitive method of `DXFGenerator`. -/
def colors.WHITE : Nat := 7

/-- ACI color constant `ezdxf.colors.GRAY`. -/
def colors.GRAY : Nat := 8

/-- A 2D point, as the Python tuples `(x, y)` used throughout the program. -/
abbrev Point : Type := ℚ × ℚ

/-- An entity-creation call on the ezdxf modelspace (`self.msp.add_*`),
with the arguments the wrapper passes.  `add_text` passes its color inside
`dxfattribs`, so the text call carries it; the other calls set the color on
the returned entity afterwards. -/
inductive EntityCall where
  | line (start end_ : Point)
  | circle (center : Point) (radius : ℚ)
  | lwpolyline (points : List Point)
  | arc (center : Point) (radius start_angle end_angle : ℚ)
  | text (text : String) (height : ℚ) (insert : Point) (color : Nat)
  | spline (control_points : List Point)
deriving DecidableEq

/-- A DXF entity living in the modelspace: the creation call that produced it
plus its current `dxf.color` attribute. -/
structure Entity where
  call : EntityCall
  color : Nat
deriving DecidableEq

/-- One record of `self.drawing_elements`: the tagged dictionary each
primitive method appends, with the same fields the source stores. -/
inductive Element where
  | line (start end_ : Point) (color : Nat)
  | circle (center : Point) (radius : ℚ) (color : Nat)
  | rectangle (corner1 corner2 : Point) (color : Nat)
  | polygon (points : List Point) (closed : Bool) (color : Nat)
  | arc (center : Point) (radius start_angle end_angle : ℚ) (color : Nat)
  | text (text : String) (position : Point) (height : ℚ) (color : Nat)
  | spline (control_points : List Point) (color : Nat)
deriving DecidableEq

/-- The Python `'type'` tag stored in a drawing record. -/
def Element.ty : Element → String
  | .line _ _ _ => "line"
  | .circle _ _ _ => "circle"
  | .rectangle _ _ _ => "rectangle"
  | .polygon _ _ _ => "polygon"
  | .arc _ _ _ _ _ => "arc"
  | .text _ _ _ _ => "text"
  | .spline _ _ => "spline"

/-- The `'color'` field of a drawing record (every record has one). -/
def Element.color : Element → Nat
  | .line _ _ c => c
  | .circle _ _ c => c
  | .rectangle _ _ c => c
  | .polygon _ _ c => c
  | .arc _ _ _ _ c => c
  | .text _ _ _ c => c
  | .spline _ c => c

/-- A Python exception: either raised inside a wrapped library call, or an
`IndexError` raised by the wrapper's own indexing. -/
inductive PyError where
  | libraryError
  | indexError
deriving DecidableEq

/-- The mutable state of a `DXFGenerator` object, plus the trace `issued`
of entity-creation calls the wrapper has handed to the library. -/
structure GenState where
  issued : List EntityCall
  msp : List Entity
  drawing_elements : List Element
deriving DecidableEq

/-- `DXFGenerator.__init__`: fresh document, empty modelspace, empty record
list. -/
def GenState.init : GenState :=
  { issued := [], msp := [], drawing_elements := [] }

/-- Success behaviour of the wrapped ezdxf library: which entity-creation
calls it accepts.  The repository gives the library no contract beyond
"it raises on bad input", so the behaviour is kept abstract. -/
abbrev Oracle : Type := EntityCall → Bool

/-- The shared shape of every primitive method body: issue one
entity-creation call to the library (the call is traced); on success the
library appends the entity to the modelspace, the wrapper sets its color
(the entity is modelled with the color already set, as nothing observes it
in between), appends its record to `drawing_elements` and returns the
entity; if the library raises, the exception propagates and nothing is
appended. -/
def addPrimitive (oracle : Oracle) (st : GenState) (call : EntityCall)
    (color : Nat) (rec : Element) : GenState × Except PyError Entity :=
  if oracle call then
    let ent : Entity := { call := call, color := color }
    ({ issued := st.issued ++ [call], msp := st.msp ++ [ent],
       drawing_elements := st.drawing_elements ++ [rec] }, Except.ok ent)
  else
    ({ st with issued := st.issued ++ [call] }, Except.error PyError.libraryError)

/-- `DXFGenerator.add_line`. -/
def DXFGenerator.add_line (oracle : Oracle) (st : GenState)
    (start end_ : Point) (color : Nat) : GenState × Except PyError Entity :=
  addPrimitive oracle st (EntityCall.line start end_) color
    (Element.line start end_ color)

/-- `DXFGenerator.add_circle`. -/
def DXFGenerator.add_circle (oracle : Oracle) (st : GenState)
    (center : Point) (radius : ℚ) (color : Nat) : GenState × Except PyError Entity :=
  addPrimitive oracle st (EntityCall.circle center radius) color
    (Element.circle center radius color)

/-- The five-point closed corner sequence `add_rectangle` builds from its two
corners before handing it to `add_lwpolyline`. -/
def rectanglePoints (corner1 corner2 : Point) : List Point :=
  let x1 := corner1.1
  let y1 := corner1.2
  let x2 := corner2.1
  let y2 := corner2.2
  [(x1, y1), (x2, y1), (x2, y2), (x1, y2), (x1, y1)]

/-- `DXFGenerator.add_rectangle`. -/
def DXFGenerator.add_rectangle (oracle : Oracle) (st : GenState)
    (corner1 corner2 : Point) (color : Nat) : GenState × Except PyError Entity :=
  addPrimitive oracle st (EntityCall.lwpolyline (rectanglePoints corner1 corner2)) color
    (Element.rectangle corner1 corner2 color)

/-- The list-closing step of `add_polygon`:
`if closed and points[0] != points[-1]: points = points + [points[0]]`.
On an empty list with `closed` true, `points[0]` raises `IndexError` in the
wrapper itself (Python short-circuits `and`, so `closed = false` never
indexes). -/
def closePoints (points : List Point) (closed : Bool) : Except PyError (List Point) :=
  if closed then
    match points.head?, points.getLast? with
    | some p0, some plast =>
        Except.ok (if p0 ≠ plast then points ++ [p0] else points)
    | _, _ => Except.error PyError.indexError
  else Except.ok points

/-- `DXFGenerator.add_polygon`.  `original_points` is the shallow copy
`points.copy()` taken before closing; the record stores it.  (The
aliasing content of that copy is modelled separately at heap level by
`add_polygon_heap`.) -/
def DXFGenerator.add_polygon (oracle : Oracle) (st : GenState)
    (points : List Point) (closed : Bool) (color : Nat) : GenState × Except PyError Entity :=
  let original_points := points
  match closePoints points closed with
  | Except.error e => (st, Except.error e)
  | Except.ok pts =>
      addPrimitive oracle st (EntityCall.lwpolyline pts) color
        (Element.polygon original_points closed color)

/-- `DXFGenerator.add_arc` (angles in degrees, passed through unchanged). -/
def DXFGenerator.add_arc (oracle : Oracle) (st : GenState)
    (center : Point) (radius start_angle end_angle : ℚ) (color : Nat) :
    GenState × Except PyError Entity :=
  addPrimitive oracle st (EntityCall.arc center radius start_angle end_angle) color
    (Element.arc center radius start_angle end_angle color)

/-- `DXFGenerator.add_text` (height, insert position and color are passed in
`dxfattribs`). -/
def DXFGenerator.add_text (oracle : Oracle) (st : GenState)
    (text : String) (position : Point) (height : ℚ) (color : Nat) :
    GenState × Except PyError Entity :=
  addPrimitive oracle st (EntityCall.text text height position color) color
    (Element.text text position height color)

/-- `DXFGenerator.add_spline`. -/
def DXFGenerator.add_spline (oracle : Oracle) (st : GenState)
    (control_points : List Point) (color : Nat) : GenState × Except PyError Entity :=
  addPrimitive oracle st (EntityCall.spline control_points) color
    (Element.spline control_points color)

/-- One invocation of a primitive method with its arguments.  Python's
defaulted `color` argument is an explicit argument here; an omitted color is
the call with `colors.WHITE`. -/
inductive Call where
  | line (start end_ : Point) (color : Nat)
  | circle (center : Point) (radius : ℚ) (color : Nat)
  | rectangle (corner1 corner2 : Point) (color : Nat)
  | polygon (points : List Point) (closed : Bool) (color : Nat)
  | arc (center : Point) (radius start_angle end_angle : ℚ) (color : Nat)
  | text (text : String) (position : Point) (height : ℚ) (color : Nat)
  | spline (control_points : List Point) (color : Nat)
deriving DecidableEq

/-- The color argument of a primitive call. -/
def Call.colorOf : Call → Nat
  | .line _ _ c => c
  | .circle _ _ c => c
  | .rectangle _ _ c => c
  | .polygon _ _ c => c
  | .arc _ _ _ _ c => c
  | .text _ _ _ c => c
  | .spline _ c => c

/-- The record that a successful primitive call appends to
`drawing_elements`: same tag, same argument fields. -/
def recordOf : Call → Element
  | .line start end_ c => Element.line start end_ c
  | .circle center radius c => Element.circle center radius c
  | .rectangle corner1 corner2 c => Element.rectangle corner1 corner2 c
  | .polygon points closed c => Element.polygon points closed c
  | .arc center radius a1 a2 c => Element.arc center radius a1 a2 c
  | .text t position height c => Element.text t position height c
  | .spline control_points c => Element.spline control_points c

/-- Dispatch one primitive call on the generator state. -/
def step (oracle : Oracle) (st : GenState) : Call → GenState × Except PyError Entity
  | .line start end_ c => DXFGenerator.add_line oracle st start end_ c
  | .circle center radius c => DXFGenerator.add_circle oracle st center radius c
  | .rectangle corner1 corner2 c => DXFGenerator.add_rectangle oracle st corner1 corner2 c
  | .polygon points closed c => DXFGenerator.add_polygon oracle st points closed c
  | .arc center radius a1 a2 c => DXFGenerator.add_arc oracle st center radius a1 a2 c
  | .text t position height c => DXFGenerator.add_text oracle st t position height c
  | .spline control_points c => DXFGenerator.add_spline oracle st control_points c

/-- Run a sequence of primitive calls; an exception aborts the sequence and
propagates, leaving the state as it was at the raise. -/
def runCalls (oracle : Oracle) : GenState → List Call → GenState × Except PyError Unit
  | st, [] => (st, Except.ok ())
  | st, c :: cs =>
    match step oracle st c with
    | (st1, Except.ok _) => runCalls oracle st1 cs
    | (st1, Except.error e) => (st1, Except.error e)

/-- Written from the claim text, for comparison with the code: the point list
the library is expected to receive from `add_polygon` — "the first point
appended when closed is true and the list is not already closed". -/
def specPolygonPoints (pts : List Point) (closed : Bool) : List Point :=
  match pts with
  | [] => []
  | p0 :: rest =>
      if closed = true ∧ some p0 ≠ (p0 :: rest).getLast? then (p0 :: rest) ++ [p0]
      else p0 :: rest

/-- Written from the claim text, for comparison with the code: the single
entity-creation call each primitive method is expected to issue. -/
def specEntityCall : Call → EntityCall
  | .line start end_ _ => EntityCall.line start end_
  | .circle center radius _ => EntityCall.circle center radius
  | .rectangle corner1 corner2 _ => EntityCall.lwpolyline (rectanglePoints corner1 corner2)
  | .polygon points closed _ => EntityCall.lwpolyline (specPolygonPoints points closed)
  | .arc center radius a1 a2 _ => EntityCall.arc center radius a1 a2
  | .text t position height c => EntityCall.text t height position c
  | .spline control_points _ => EntityCall.spline control_points

/-- The values taken by one `while`-loop variable of `create_grid`
(`x = x_origin; while x <= bound: ...; x += spacing`).  The source loop
terminates exactly when `spacing` is positive (otherwise the Python loop
never stops once entered); this definition agrees with the source on that
domain and returns `[]` where the source diverges. -/
def gridTicks (x bound spacing : ℚ) : List ℚ :=
  if h : 0 < spacing ∧ x ≤ bound then
    x :: gridTicks (x + spacing) bound spacing
  else []
termination_by (⌊(bound - x) / spacing⌋ + 1).toNat
decreasing_by
  obtain ⟨hs, hx⟩ := h
  have h1 : (bound - (x + spacing)) / spacing = (bound - x) / spacing - 1 := by
    rw [show bound - (x + spacing) = (bound - x) - spacing by ring, sub_div,
      div_self (ne_of_gt hs)]
  rw [h1, Int.floor_sub_one]
  have h0 : (0 : ℤ) ≤ ⌊(bound - x) / spacing⌋ :=
    Int.floor_nonneg.mpr (div_nonneg (by linarith) hs.le)
  omega

/-- The sequence of primitive calls `create_grid` makes, in source order:
vertical lines, then horizontal lines, then (when `show_coordinates`) the
coordinate labels at intersections whose offset position stays inside the
grid.  The loop variables do not depend on the generator state, so the
method is the run of this call list.  `fmt` models the Python formatting
`f"{x:g}"` applied to a coordinate. -/
def grid_calls (fmt : ℚ → String) (width height spacing : ℚ) (origin : Point)
    (color : Nat) (show_coordinates : Bool) (text_height : ℚ) : List Call :=
  let x_origin := origin.1
  let y_origin := origin.2
  (gridTicks x_origin (x_origin + width) spacing).map
    (fun x => Call.line (x, y_origin) (x, y_origin + height) color)
  ++ (gridTicks y_origin (y_origin + height) spacing).map
    (fun y => Call.line (x_origin, y) (x_origin + width, y) color)
  ++ (if show_coordinates then
        (gridTicks x_origin (x_origin + width) spacing).flatMap (fun x =>
          (gridTicks y_origin (y_origin + height) spacing).filterMap (fun y =>
            let text_x := x + spacing * 0.05
            let text_y := y + spacing * 0.05
            if text_x ≤ x_origin + width ∧ text_y ≤ y_origin + height then
              some (Call.text ("(" ++ fmt x ++ "," ++ fmt y ++ ")")
                (text_x, text_y) text_height colors.RED)
            else none))
      else [])

/-- `DXFGenerator.create_grid`. -/
def DXFGenerator.create_grid (fmt : ℚ → String) (oracle : Oracle) (st : GenState)
    (width height spacing : ℚ) (origin : Point) (color : Nat)
    (show_coordinates : Bool) (text_height : ℚ) : GenState × Except PyError Unit :=
  runCalls oracle st
    (grid_calls fmt width height spacing origin color show_coordinates text_height)

/-- The `math` module as the source uses it: the float `math.pi` and the
float functions `math.cos` and `math.sin`, kept abstract. -/
structure PyMath where
  pi : ℚ
  cos : ℚ → ℚ
  sin : ℚ → ℚ

/-- The vertex list `star_points` computed by `create_star`:
`angle_step = 2*pi/(points*2)`, vertex `i` at angle `i*angle_step - pi/2`,
outer radius on even `i`, inner radius on odd `i`. -/
def star_points (M : PyMath) (center : Point) (outer_radius inner_radius : ℚ)
    (points : Nat) : List Point :=
  let cx := center.1
  let cy := center.2
  let angle_step := 2 * M.pi / ((points * 2 : Nat) : ℚ)
  (List.range (points * 2)).map (fun (i : Nat) =>
    let angle := (i : ℚ) * angle_step - M.pi / 2
    let radius := if i % 2 = 0 then outer_radius else inner_radius
    (cx + radius * M.cos angle, cy + radius * M.sin angle))

/-- `DXFGenerator.create_star`: computes the vertices and returns
`self.add_polygon(star_points, closed=True, color=color)`. -/
def DXFGenerator.create_star (M : PyMath) (oracle : Oracle) (st : GenState)
    (center : Point) (outer_radius inner_radius : ℚ) (points : Nat) (color : Nat) :
    GenState × Except PyError Entity :=
  DXFGenerator.add_polygon oracle st
    (star_points M center outer_radius inner_radius points) true color

/-- `DXFGenerator._color_to_matplotlib`: the dictionary lookup with default
`'black'` (the leading underscore of the Python name is dropped). -/
def color_to_matplotlib (dxf_color : Nat) : String :=
  if dxf_color = colors.WHITE then "black"
  else if dxf_color = colors.RED then "red"
  else if dxf_color = colors.YELLOW then "orange"
  else if dxf_color = colors.GREEN then "green"
  else if dxf_color = colors.CYAN then "cyan"
  else if dxf_color = colors.BLUE then "blue"
  else if dxf_color = colors.MAGENTA then "magenta"
  else if dxf_color = colors.BLACK then "black"
  else if dxf_color = colors.GRAY then "black"
  else "black"

/-- One call into the matplotlib axes while rendering: `ax.plot`,
`ax.add_patch` of the respective patch kind, or `ax.text`, with the
arguments the source passes. -/
inductive PlotCmd where
  | plot (xs ys : List ℚ) (color : String)
  | add_circle (center : Point) (radius : ℚ) (color : String)
  | add_rect (xy : Point) (width height : ℚ) (color : String)
  | add_polygon_patch (points : List Point) (color : String)
  | add_arc (center : Point) (width height angle theta1 theta2 : ℚ) (color : String)
  | text (position : Point) (s : String) (fontsize : ℚ) (color : String)
deriving DecidableEq

/-- The body of the `save_png` loop for one record of `drawing_elements`:
the list of plotting calls it makes (empty for a spline with at most one
control point), or the `IndexError` the wrapper raises on an empty closed
polygon record. -/
def renderElement (element : Element) : Except PyError (List PlotCmd) :=
  let color := color_to_matplotlib element.color
  match element with
  | Element.line start end_ _ =>
      Except.ok [PlotCmd.plot [start.1, end_.1] [start.2, end_.2] color]
  | Element.circle center radius _ =>
      Except.ok [PlotCmd.add_circle center radius color]
  | Element.rectangle corner1 corner2 _ =>
      let x1 := corner1.1
      let y1 := corner1.2
      let x2 := corner2.1
      let y2 := corner2.2
      Except.ok [PlotCmd.add_rect (min x1 x2, min y1 y2)
        (abs (x2 - x1)) (abs (y2 - y1)) color]
  | Element.polygon points closed _ =>
      if closed then
        match points.head?, points.getLast? with
        | some p0, some plast =>
            Except.ok [PlotCmd.add_polygon_patch
              (if p0 ≠ plast then points ++ [p0] else points) color]
        | _, _ => Except.error PyError.indexError
      else Except.ok [PlotCmd.add_polygon_patch points color]
  | Element.arc center radius start_angle end_angle _ =>
      Except.ok [PlotCmd.add_arc center (2 * radius) (2 * radius) 0
        start_angle end_angle color]
  | Element.text t position height _ =>
      let fontsize :=
        if t.startsWith "(" && t.contains ',' && t.endsWith ")" then height * 2.4
        else height * 4
      Except.ok [PlotCmd.text position t fontsize color]
  | Element.spline control_points _ =>
      if control_points.length > 1 then
        Except.ok [PlotCmd.plot (control_points.map Prod.fst)
          (control_points.map Prod.snd) color]
      else Except.ok []

/-- The full `save_png` loop over `drawing_elements`, concatenating the
plotting calls in record order; an exception aborts the loop. -/
def renderElements : List Element → Except PyError (List PlotCmd)
  | [] => Except.ok []
  | e :: rest =>
    match renderElement e with
    | Except.error err => Except.error err
    | Except.ok cmds =>
      match renderElements rest with
      | Except.error err => Except.error err
      | Except.ok restCmds => Except.ok (cmds ++ restCmds)

/-- Filenames are Python strings, modelled as character lists so that the
suffix and replace operations of the source can be reasoned about. -/
abbrev PyStr : Type := List Char

/-- The characters of the extension string literal used by `save`. -/
def dxfExt : PyStr := ['.', 'd', 'x', 'f']

/-- The characters of the extension string literal used by `save_png`. -/
def pngExt : PyStr := ['.', 'p', 'n', 'g']

/-- `if not filename.endswith('.dxf'): filename += '.dxf'` in `save`. -/
def dxfName (filename : PyStr) : PyStr :=
  if dxfExt.isSuffixOf filename then filename else filename ++ dxfExt

/-- `if not filename.endswith('.png'): filename += '.png'` in `save_png`. -/
def ensurePng (filename : PyStr) : PyStr :=
  if pngExt.isSuffixOf filename then filename else filename ++ pngExt

/-- Python `str.replace`: replace all non-overlapping occurrences of `pat`,
scanning left to right (used with the non-empty pattern `'.dxf'`; for an
empty pattern this returns the string unchanged, a case the program never
exercises). -/
def pyReplace (s pat rep : PyStr) : PyStr :=
  match s with
  | [] => []
  | c :: rest =>
    if h : pat ≠ [] ∧ pat.isPrefixOf (c :: rest) then
      rep ++ pyReplace ((c :: rest).drop pat.length) pat rep
    else
      c :: pyReplace rest pat rep
termination_by s.length
decreasing_by
  · have hp : 0 < pat.length := List.length_pos.mpr h.1
    simp only [List.length_drop, List.length_cons]
    omega
  · simp only [List.length_cons]
    omega

/-- A file the program writes: the DXF document (the modelspace entities)
written by `doc.saveas`, or the PNG written by `plt.savefig`, recorded with
the figure parameters and the plotting calls that drew it. -/
inductive FileOutput where
  | dxf (filename : PyStr) (doc : List Entity)
  | png (filename : PyStr) (width height dpi : Nat) (cmds : List PlotCmd)
deriving DecidableEq

/-- `DXFGenerator.save_png`: fix the `.png` extension, replay
`drawing_elements` through matplotlib, and write the file; if rendering
raises, no file is written and the exception propagates. -/
def DXFGenerator.save_png (st : GenState) (filename : PyStr)
    (width height dpi : Nat) : List FileOutput × Except PyError Unit :=
  let filename := ensurePng filename
  match renderElements st.drawing_elements with
  | Except.ok cmds => ([FileOutput.png filename width height dpi cmds], Except.ok ())
  | Except.error e => ([], Except.error e)

/-- `DXFGenerator.save`: fix the `.dxf` extension, write the DXF document,
and when `save_png` is requested also write the PNG under the name
`filename.replace('.dxf', '.png')`.  The DXF file is written before the PNG
step runs. -/
def DXFGenerator.save (st : GenState) (filename : PyStr) (save_png : Bool)
    (png_width png_height png_dpi : Nat) : List FileOutput × Except PyError Unit :=
  let filename := dxfName filename
  let dxfOut := FileOutput.dxf filename st.msp
  if save_png then
    let png_filename := pyReplace filename dxfExt pngExt
    let res := DXFGenerator.save_png st png_filename png_width png_height png_dpi
    (dxfOut :: res.1, res.2)
  else ([dxfOut], Except.ok ())

/-- A heap of Python list objects, for the aliasing-level model of
`add_polygon`'s list handling: cells are addressed by allocation index. -/
structure PyHeap where
  cells : List (List Point)

/-- Read the list object at a reference (unallocated references read `[]`;
the model is only used with valid references). -/
def PyHeap.read (h : PyHeap) (r : Nat) : List Point :=
  h.cells.getD r []

/-- Allocate a fresh list object, returning the new heap and its reference. -/
def PyHeap.alloc (h : PyHeap) (v : List Point) : PyHeap × Nat :=
  ({ cells := h.cells ++ [v] }, h.cells.length)

/-- Overwrite the list object at a reference (a caller mutating its list). -/
def PyHeap.write (h : PyHeap) (r : Nat) (v : List Point) : PyHeap :=
  { cells := h.cells.set r v }

/-- Heap-level model of the list handling in `add_polygon`, given the
caller's `points` list by reference: `original_points = points.copy()`
allocates a fresh cell with the same contents; the closing step builds a
new list value with `+` (no cell is written); the method passes the closed
list to the library and stores the reference to the copy in the record.
Returns the heap, the stored reference, and the list passed to
`add_lwpolyline`. -/
def add_polygon_heap (h : PyHeap) (pointsRef : Nat) (closed : Bool) :
    PyHeap × Except PyError (Nat × List Point) :=
  let points := h.read pointsRef
  let alloc_out := h.alloc points
  let h1 := alloc_out.1
  let original_ref := alloc_out.2
  if closed then
    match points.head?, points.getLast? with
    | some p0, some plast =>
        (h1, Except.ok (original_ref, if p0 ≠ plast then points ++ [p0] else points))
    | _, _ => (h1, Except.error PyError.indexError)
  else (h1, Except.ok (original_ref, points))

/-- Well-formedness of a record list that a real `DXFGenerator` can hold:
every closed polygon record has a nonempty point list (an empty closed
polygon call raises before its record is appended). -/
def WFRecords (l : List Element) : Prop :=
  ∀ pts closed c, Element.polygon pts closed c ∈ l → closed = true → pts ≠ []

/-- Full characterisation of one library interaction. -/
theorem addPrimitive_char (oracle : Oracle) (st : GenState) (call : EntityCall)
    (color : Nat) (rec : Element) :
    addPrimitive oracle st call color rec =
      if oracle call then
        ({ issued := st.issued ++ [call],
           msp := st.msp ++ [{ call := call, color := color }],
           drawing_elements := st.drawing_elements ++ [rec] },
         Except.ok { call := call, color := color })
      else
        ({ st with issued := st.issued ++ [call] }, Except.error PyError.libraryError) := by
  unfold addPrimitive
  split <;> rfl

/-- On a nonempty list, or with `closed` false, the closing step succeeds and
returns exactly the point list described by the claim text. -/
theorem closePoints_eq_spec (pts : List Point) (closed : Bool)
    (h : closed = true → pts ≠ []) :
    closePoints pts closed = Except.ok (specPolygonPoints pts closed) := by
  cases closed with
  | false =>
    cases pts with
    | nil => rfl
    | cons p0 rest => simp [closePoints, specPolygonPoints]
  | true =>
    cases pts with
    | nil => exact absurd rfl (h rfl)
    | cons p0 rest =>
      cases hl : (p0 :: rest).getLast? with
      | none => exact absurd (List.getLast?_eq_none_iff.mp hl) (by simp)
      | some plast =>
        simp only [closePoints, if_true, List.head?_cons, hl, specPolygonPoints, hl]
        by_cases hpe : p0 = plast
        · subst hpe
          simp
        · simp [hpe, Ne.symm]

/-- A successful closing step implies the point list of a closed polygon was
nonempty. -/
theorem closePoints_ok_closed (pts : List Point) (l : List Point)
    (h : closePoints pts true = Except.ok l) : pts ≠ [] := by
  intro hnil
  subst hnil
  simp [closePoints] at h

/-- Full characterisation of one primitive invocation whose input does not
trip the wrapper-side `IndexError` (every call except a closed polygon on an
empty list): the wrapper issues exactly the expected entity-creation call,
and on success the modelspace gains exactly the entity the library created,
the record list gains exactly the record of the call, and that entity is
returned. -/
theorem step_char (oracle : Oracle) (st : GenState) (c : Call)
    (hc : ∀ pts col, c = Call.polygon pts true col → pts ≠ []) :
    step oracle st c =
      if oracle (specEntityCall c) then
        ({ issued := st.issued ++ [specEntityCall c],
           msp := st.msp ++ [{ call := specEntityCall c, color := c.colorOf }],
           drawing_elements := st.drawing_elements ++ [recordOf c] },
         Except.ok { call := specEntityCall c, color := c.colorOf })
      else
        ({ st with issued := st.issued ++ [specEntityCall c] },
         Except.error PyError.libraryError) := by
  cases c with
  | line start end_ col =>
    simpa [step, DXFGenerator.add_line, specEntityCall, recordOf, Call.colorOf] using
      addPrimitive_char oracle st (EntityCall.line start end_) col (Element.line start end_ col)
  | circle center radius col =>
    simpa [step, DXFGenerator.add_circle, specEntityCall, recordOf, Call.colorOf] using
      addPrimitive_char oracle st (EntityCall.circle center radius) col
        (Element.circle center radius col)
  | rectangle corner1 corner2 col =>
    simpa [step, DXFGenerator.add_rectangle, specEntityCall, recordOf, Call.colorOf] using
      addPrimitive_char oracle st (EntityCall.lwpolyline (rectanglePoints corner1 corner2)) col
        (Element.rectangle corner1 corner2 col)
  | polygon pts closed col =>
    have hcp : closePoints pts closed = Except.ok (specPolygonPoints pts closed) :=
      closePoints_eq_spec pts closed (fun hcl => hc pts col (by rw [hcl]))
    simp only [step, DXFGenerator.add_polygon, hcp, specEntityCall, recordOf, Call.colorOf]
    exact addPrimitive_char oracle st (EntityCall.lwpolyline (specPolygonPoints pts closed)) col
      (Element.polygon pts closed col)
  | arc center radius a1 a2 col =>
    simpa [step, DXFGenerator.add_arc, specEntityCall, recordOf, Call.colorOf] using
      addPrimitive_char oracle st (EntityCall.arc center radius a1 a2) col
        (Element.arc center radius a1 a2 col)
  | text t position height col =>
    simpa [step, DXFGenerator.add_text, specEntityCall, recordOf, Call.colorOf] using
      addPrimitive_char oracle st (EntityCall.text t height position col) col
        (Element.text t position height col)
  | spline cps col =>
    simpa [step, DXFGenerator.add_spline, specEntityCall, recordOf, Call.colorOf] using
      addPrimitive_char oracle st (EntityCall.spline cps) col (Element.spline cps col)

/-- A successful `add_polygon` issued one `lwpolyline` call carrying the
closed point list and returned the entity the library created from it. -/
theorem add_polygon_ok (oracle : Oracle) (st : GenState) (points : List Point)
    (closed : Bool) (color : Nat) (st1 : GenState) (ent : Entity)
    (h : DXFGenerator.add_polygon oracle st points closed color = (st1, Except.ok ent)) :
    ∃ pts, closePoints points closed = Except.ok pts ∧
      ent = { call := EntityCall.lwpolyline pts, color := color } ∧
      st1.issued = st.issued ++ [EntityCall.lwpolyline pts] ∧
      st1.msp = st.msp ++ [ent] ∧
      st1.drawing_elements = st.drawing_elements ++ [Element.polygon points closed color] := by
  cases hcp : closePoints points closed with
  | error e =>
    simp only [DXFGenerator.add_polygon, hcp] at h
    injection h with h1 h2
    exact Except.noConfusion h2
  | ok pts =>
    simp only [DXFGenerator.add_polygon, hcp, addPrimitive_char] at h
    split at h
    · injection h with h1 h2
      injection h2 with h3
      subst h3
      rw [← h1]
      exact ⟨pts, rfl, rfl, rfl, rfl, rfl⟩
    · injection h with h1 h2
      exact Except.noConfusion h2

/-- Dichotomy for one primitive invocation: on success the modelspace and
the record list each gain exactly one matching element; on a raise neither
gains anything. -/
theorem step_cases (oracle : Oracle) (st : GenState) (c : Call) (st1 : GenState)
    (r : Except PyError Entity) (h : step oracle st c = (st1, r)) :
    (∃ ent, r = Except.ok ent ∧ st1.msp = st.msp ++ [ent] ∧
      st1.drawing_elements = st.drawing_elements ++ [recordOf c]) ∨
    (∃ e, r = Except.error e ∧ st1.msp = st.msp ∧
      st1.drawing_elements = st.drawing_elements) := by
  cases c with
  | polygon pts closed col =>
    cases hcp : closePoints pts closed with
    | error e =>
      simp only [step, DXFGenerator.add_polygon, hcp] at h
      injection h with h1 h2
      subst h2
      exact Or.inr ⟨e, rfl, by rw [← h1], by rw [← h1]⟩
    | ok l =>
      simp only [step, DXFGenerator.add_polygon, hcp, addPrimitive_char] at h
      split at h
      · injection h with h1 h2
        subst h2
        exact Or.inl ⟨_, rfl, by rw [← h1], by rw [← h1]; simp [recordOf]⟩
      · injection h with h1 h2
        subst h2
        exact Or.inr ⟨_, rfl, by rw [← h1], by rw [← h1]⟩
  | line start end_ col =>
    simp only [step, DXFGenerator.add_line, addPrimitive_char] at h
    split at h
    · injection h with h1 h2
      subst h2
      exact Or.inl ⟨_, rfl, by rw [← h1], by rw [← h1]; simp [recordOf]⟩
    · injection h with h1 h2
      subst h2
      exact Or.inr ⟨_, rfl, by rw [← h1], by rw [← h1]⟩
  | circle center radius col =>
    simp only [step, DXFGenerator.add_circle, addPrimitive_char] at h
    split at h
    · injection h with h1 h2
      subst h2
      exact Or.inl ⟨_, rfl, by rw [← h1], by rw [← h1]; simp [recordOf]⟩
    · injection h with h1 h2
      subst h2
      exact Or.inr ⟨_, rfl, by rw [← h1], by rw [← h1]⟩
  | rectangle c1 c2 col =>
    simp only [step, DXFGenerator.add_rectangle, addPrimitive_char] at h
    split at h
    · injection h with h1 h2
      subst h2
      exact Or.inl ⟨_, rfl, by rw [← h1], by rw [← h1]; simp [recordOf]⟩
    · injection h with h1 h2
      subst h2
      exact Or.inr ⟨_, rfl, by rw [← h1], by rw [← h1]⟩
  | arc center radius a1 a2 col =>
    simp only [step, DXFGenerator.add_arc, addPrimitive_char] at h
    split at h
    · injection h with h1 h2
      subst h2
      exact Or.inl ⟨_, rfl, by rw [← h1], by rw [← h1]; simp [recordOf]⟩
    · injection h with h1 h2
      subst h2
      exact Or.inr ⟨_, rfl, by rw [← h1], by rw [← h1]⟩
  | text t pos ht col =>
    simp only [step, DXFGenerator.add_text, addPrimitive_char] at h
    split at h
    · injection h with h1 h2
      subst h2
      exact Or.inl ⟨_, rfl, by rw [← h1], by rw [← h1]; simp [recordOf]⟩
    · injection h with h1 h2
      subst h2
      exact Or.inr ⟨_, rfl, by rw [← h1], by rw [← h1]⟩
  | spline cps col =>
    simp only [step, DXFGenerator.add_spline, addPrimitive_char] at h
    split at h
    · injection h with h1 h2
      subst h2
      exact Or.inl ⟨_, rfl, by rw [← h1], by rw [← h1]; simp [recordOf]⟩
    · injection h with h1 h2
      subst h2
      exact Or.inr ⟨_, rfl, by rw [← h1], by rw [← h1]⟩

/-- A successful invocation appends exactly the record of the call. -/
theorem step_ok_drawing (oracle : Oracle) (st : GenState) (c : Call)
    (st1 : GenState) (ent : Entity) (h : step oracle st c = (st1, Except.ok ent)) :
    st1.drawing_elements = st.drawing_elements ++ [recordOf c] := by
  rcases step_cases oracle st c st1 (Except.ok ent) h with ⟨ent2, _, _, hd⟩ | ⟨e, he, _, _⟩
  · exact hd
  · exact Except.noConfusion he

/-- An invocation that raises leaves the record list and the modelspace
exactly as they were. -/
theorem step_error_state (oracle : Oracle) (st : GenState) (c : Call)
    (st1 : GenState) (e : PyError) (h : step oracle st c = (st1, Except.error e)) :
    st1.drawing_elements = st.drawing_elements ∧ st1.msp = st.msp := by
  rcases step_cases oracle st c st1 (Except.error e) h with ⟨ent2, he, _, _⟩ | ⟨e2, _, hm, hd⟩
  · exact Except.noConfusion he
  · exact ⟨hd, hm⟩

/-- A successful invocation appends exactly one entity to the modelspace. -/
theorem step_ok_msp (oracle : Oracle) (st : GenState) (c : Call)
    (st1 : GenState) (ent : Entity) (h : step oracle st c = (st1, Except.ok ent)) :
    st1.msp = st.msp ++ [ent] := by
  rcases step_cases oracle st c st1 (Except.ok ent) h with ⟨ent2, he, hm, _⟩ | ⟨e, he, _, _⟩
  · injection he with he2
    rw [hm, he2]
  · exact Except.noConfusion he

/-- Over a whole successful call sequence, the record list gains exactly the
records of the calls, in order. -/
theorem runCalls_ok_drawing (oracle : Oracle) : ∀ (calls : List Call) (st : GenState),
    (runCalls oracle st calls).2 = Except.ok () →
    (runCalls oracle st calls).1.drawing_elements =
      st.drawing_elements ++ calls.map recordOf := by
  intro calls
  induction calls with
  | nil => intro st _; simp [runCalls]
  | cons c cs ih =>
    intro st h
    rcases hstep : step oracle st c with ⟨st1, r⟩
    cases r with
    | ok ent =>
      have hd := step_ok_drawing oracle st c st1 ent hstep
      simp only [runCalls, hstep] at h ⊢
      rw [ih st1 h, hd]
      simp
    | error e =>
      simp only [runCalls, hstep] at h
      exact absurd h (by simp)

/-- The modelspace and the record list always have the same length after any
call sequence, successful or aborted. -/
theorem runCalls_len (oracle : Oracle) : ∀ (calls : List Call) (st : GenState),
    st.msp.length = st.drawing_elements.length →
    (runCalls oracle st calls).1.msp.length =
      (runCalls oracle st calls).1.drawing_elements.length := by
  intro calls
  induction calls with
  | nil => intro st hlen; simpa [runCalls] using hlen
  | cons c cs ih =>
    intro st hlen
    rcases hstep : step oracle st c with ⟨st1, r⟩
    cases r with
    | ok ent =>
      have hm := step_ok_msp oracle st c st1 ent hstep
      have hd := step_ok_drawing oracle st c st1 ent hstep
      simp only [runCalls, hstep]
      exact ih st1 (by simp [hm, hd, hlen])
    | error e =>
      obtain ⟨hd, hm⟩ := step_error_state oracle st c st1 e hstep
      simp only [runCalls, hstep]
      simp [hm, hd, hlen]

/-- One invocation preserves record well-formedness. -/
theorem step_WF (oracle : Oracle) (st : GenState) (c : Call) (st1 : GenState)
    (r : Except PyError Entity) (h : step oracle st c = (st1, r))
    (hwf : WFRecords st.drawing_elements) : WFRecords st1.drawing_elements := by
  rcases step_cases oracle st c st1 r h with ⟨ent, he, _, hd⟩ | ⟨e, _, _, hd⟩
  · rw [hd]
    intro pts closed col hmem hcl
    rcases List.mem_append.mp hmem with hin | hone
    · exact hwf pts closed col hin hcl
    · have heq : Element.polygon pts closed col = recordOf c := by simpa using hone
      cases c with
      | polygon pts2 closed2 col2 =>
        simp only [recordOf, Element.polygon.injEq] at heq
        obtain ⟨hp, hc2, _⟩ := heq
        subst he
        subst hp
        subst hc2
        obtain ⟨l, hcp, _⟩ := add_polygon_ok oracle st pts closed col2 st1 ent
          (by simpa [step] using h)
        rw [hcl] at hcp
        exact closePoints_ok_closed pts l hcp
      | line a b cc => simp [recordOf] at heq
      | circle a b cc => simp [recordOf] at heq
      | rectangle a b cc => simp [recordOf] at heq
      | arc a b c1 c2 cc => simp [recordOf] at heq
      | text a b c1 cc => simp [recordOf] at heq
      | spline a cc => simp [recordOf] at heq
  · rw [hd]
    exact hwf

/-- Record well-formedness is an invariant of any call sequence. -/
theorem runCalls_WF (oracle : Oracle) : ∀ (calls : List Call) (st : GenState),
    WFRecords st.drawing_elements →
    WFRecords (runCalls oracle st calls).1.drawing_elements := by
  intro calls
  induction calls with
  | nil => intro st hwf; simpa [runCalls] using hwf
  | cons c cs ih =>
    intro st hwf
    rcases hstep : step oracle st c with ⟨st1, r⟩
    have hwf1 := step_WF oracle st c st1 r hstep hwf
    cases r with
    | ok ent =>
      simp only [runCalls, hstep]
      exact ih st1 hwf1
    | error e =>
      simp only [runCalls, hstep]
      exact hwf1

/-- Every record a real generator can hold renders without raising. -/
theorem renderElement_ok (e : Element)
    (h : ∀ pts c, e = Element.polygon pts true c → pts ≠ []) :
    ∃ cmds, renderElement e = Except.ok cmds := by
  cases e with
  | polygon pts closed c =>
    cases closed with
    | false =>
      exact ⟨[PlotCmd.add_polygon_patch pts (color_to_matplotlib c)],
        by simp [renderElement, Element.color]⟩
    | true =>
      have hne := h pts c rfl
      rcases pts with _ | ⟨p0, rest⟩
      · exact absurd rfl hne
      · cases hl : (p0 :: rest).getLast? with
        | none => exact absurd (List.getLast?_eq_none_iff.mp hl) (by simp)
        | some plast =>
          exact ⟨[PlotCmd.add_polygon_patch
              (if p0 ≠ plast then (p0 :: rest) ++ [p0] else (p0 :: rest))
              (color_to_matplotlib c)],
            by simp [renderElement, Element.color, hl]⟩
  | line start end_ c => exact ⟨_, rfl⟩
  | circle center radius c => exact ⟨_, rfl⟩
  | rectangle c1 c2 c => exact ⟨_, rfl⟩
  | arc center radius a1 a2 c => exact ⟨_, rfl⟩
  | text t pos ht c => exact ⟨_, rfl⟩
  | spline cps c =>
    by_cases hlen : cps.length > 1
    · exact ⟨[PlotCmd.plot (cps.map Prod.fst) (cps.map Prod.snd) (color_to_matplotlib c)],
        by simp [renderElement, Element.color, hlen]⟩
    · exact ⟨[], by simp [renderElement, hlen]⟩

/-- A well-formed record list renders without raising. -/
theorem renderElements_ok : ∀ (l : List Element), WFRecords l →
    ∃ cmds, renderElements l = Except.ok cmds := by
  intro l
  induction l with
  | nil => exact fun _ => ⟨[], rfl⟩
  | cons e rest ih =>
    intro hwf
    obtain ⟨cmds, hc⟩ := renderElement_ok e
      (fun pts c hpe => hwf pts true c (hpe ▸ List.mem_cons_self e rest) rfl)
    obtain ⟨cmds2, hc2⟩ := ih
      (fun pts closed c hm hcl => hwf pts closed c (List.mem_cons_of_mem _ hm) hcl)
    exact ⟨cmds ++ cmds2, by simp [renderElements, hc, hc2]⟩

/-- Restatement of the previous lemma as an equation. -/
theorem renderElements_ok_eq (l : List Element) (hwf : WFRecords l) :
    renderElements l = Except.ok ((renderElements l).toOption.getD []) := by
  obtain ⟨cmds, hc⟩ := renderElements_ok l hwf
  rw [hc]
  rfl

/-- Unfolding equation for the grid loop values. -/
theorem gridTicks_eq (x bound spacing : ℚ) :
    gridTicks x bound spacing =
      if 0 < spacing ∧ x ≤ bound then x :: gridTicks (x + spacing) bound spacing
      else [] := by
  rw [gridTicks]
  split <;> rfl

/-- Auxiliary induction for the tick characterisation, on an upper bound for
the number of remaining iterations. -/
theorem mem_gridTicks_aux (s : ℚ) (hs : 0 < s) :
    ∀ n : ℕ, ∀ x0 bound : ℚ, (⌊(bound - x0) / s⌋ + 1).toNat ≤ n →
      ∀ t : ℚ, (t ∈ gridTicks x0 bound s ↔ ∃ k : ℕ, t = x0 + (k : ℚ) * s ∧ t ≤ bound) := by
  intro n
  induction n with
  | zero =>
    intro x0 bound hn t
    have hb : bound < x0 := by
      by_contra hcon
      push_neg at hcon
      have h0 : (0 : ℤ) ≤ ⌊(bound - x0) / s⌋ :=
        Int.floor_nonneg.mpr (div_nonneg (by linarith) hs.le)
      omega
    rw [gridTicks_eq, if_neg (fun hcc => absurd hcc.2 (not_le.mpr hb))]
    simp only [List.not_mem_nil, false_iff]
    rintro ⟨k, rfl, hk⟩
    have hks : 0 ≤ (k : ℚ) * s := mul_nonneg (Nat.cast_nonneg k) hs.le
    linarith
  | succ n ih =>
    intro x0 bound hn t
    rw [gridTicks_eq]
    by_cases hx : x0 ≤ bound
    · rw [if_pos ⟨hs, hx⟩]
      have hF : (0 : ℤ) ≤ ⌊(bound - x0) / s⌋ :=
        Int.floor_nonneg.mpr (div_nonneg (by linarith) hs.le)
      have hmeas : (⌊(bound - (x0 + s)) / s⌋ + 1).toNat ≤ n := by
        have h1 : (bound - (x0 + s)) / s = (bound - x0) / s - 1 := by
          rw [show bound - (x0 + s) = (bound - x0) - s by ring, sub_div,
            div_self (ne_of_gt hs)]
        rw [h1, Int.floor_sub_one]
        omega
      rw [List.mem_cons, ih (x0 + s) bound hmeas t]
      constructor
      · rintro (rfl | ⟨k, rfl, hk⟩)
        · exact ⟨0, by push_cast; ring, hx⟩
        · exact ⟨k + 1, by push_cast; ring, hk⟩
      · rintro ⟨k, rfl, hk⟩
        cases k with
        | zero => left; push_cast; ring
        | succ k => right; exact ⟨k, by push_cast; ring, hk⟩
    · rw [if_neg (fun hcc => hx hcc.2)]
      simp only [List.not_mem_nil, false_iff]
      rintro ⟨k, rfl, hk⟩
      have hks : 0 ≤ (k : ℚ) * s := mul_nonneg (Nat.cast_nonneg k) hs.le
      exact hx (by linarith)

/-- The loop values of a `create_grid` while loop are exactly the points
`x0 + k * s` that do not exceed the bound. -/
theorem mem_gridTicks (s : ℚ) (hs : 0 < s) (x0 bound t : ℚ) :
    t ∈ gridTicks x0 bound s ↔ ∃ k : ℕ, t = x0 + (k : ℚ) * s ∧ t ≤ bound :=
  mem_gridTicks_aux s hs ((⌊(bound - x0) / s⌋ + 1).toNat) x0 bound le_rfl t

/-- With a library that accepts every call, a sequence of calls none of
which trips the wrapper-side `IndexError` succeeds and appends exactly its
records. -/
theorem runCalls_trueOracle_ok : ∀ (calls : List Call) (st : GenState),
    (∀ c ∈ calls, ∀ pts col, c = Call.polygon pts true col → pts ≠ []) →
    (runCalls (fun _ => true) st calls).2 = Except.ok () ∧
    (runCalls (fun _ => true) st calls).1.drawing_elements =
      st.drawing_elements ++ calls.map recordOf := by
  intro calls
  induction calls with
  | nil => intro st _; simp [runCalls]
  | cons c cs ih =>
    intro st hgood
    have hc := hgood c (List.mem_cons_self c cs)
    have hchar := step_char (fun _ => true) st c hc
    rw [if_pos rfl] at hchar
    obtain ⟨hok, hdraw⟩ := ih
      ({ issued := st.issued ++ [specEntityCall c],
         msp := st.msp ++ [{ call := specEntityCall c, color := c.colorOf }],
         drawing_elements := st.drawing_elements ++ [recordOf c] })
      (fun c2 hm => hgood c2 (List.mem_cons_of_mem c hm))
    constructor
    · simp only [runCalls, hchar]
      exact hok
    · simp only [runCalls, hchar]
      rw [hdraw]
      simp

/-- C1: for every sequence of successful primitive calls on a fresh
`DXFGenerator`, the `drawing_elements` list contains exactly one record per
call, in call order, whose type tag names the primitive and whose remaining
fields equal the arguments of that call (`recordOf`); the Python color
default is the explicit argument `colors.WHITE`. -/
theorem drawing_elements_match_calls (oracle : Oracle) (calls : List Call)
    (h : (runCalls oracle GenState.init calls).2 = Except.ok ()) :
    (runCalls oracle GenState.init calls).1.drawing_elements = calls.map recordOf := by
  simpa [GenState.init] using runCalls_ok_drawing oracle calls GenState.init h

/-- Witness for C1 on a concrete successful call sequence. -/
theorem drawing_elements_match_calls_witness :
    (runCalls (fun _ => true) GenState.init
      [Call.line (0, 0) (1, 1) colors.WHITE,
       Call.circle (2, 2) 1 colors.GREEN,
       Call.polygon [(0, 0), (3, 0), (0, 3)] true colors.MAGENTA]).1.drawing_elements =
      [Call.line (0, 0) (1, 1) colors.WHITE,
       Call.circle (2, 2) 1 colors.GREEN,
       Call.polygon [(0, 0), (3, 0), (0, 3)] true colors.MAGENTA].map recordOf :=
  drawing_elements_match_calls (fun _ => true)
    [Call.line (0, 0) (1, 1) colors.WHITE,
     Call.circle (2, 2) 1 colors.GREEN,
     Call.polygon [(0, 0), (3, 0), (0, 3)] true colors.MAGENTA] (by rfl)

/-- C2 (amended): every primitive invocation, except `add_polygon` on an
empty point list with `closed` true, issues exactly one entity-creation
call to the modelspace, passing through the caller's geometry
(`specEntityCall`: for `add_rectangle` the five-point closed corner
sequence, for `add_polygon` the list with the first point appended when
`closed` is true and the list is not already closed), and when the library
call succeeds the method returns the entity the library created. -/
theorem one_entity_call_per_invocation (oracle : Oracle) (st : GenState) (c : Call)
    (hc : ∀ pts col, c = Call.polygon pts true col → pts ≠ []) :
    (step oracle st c).1.issued = st.issued ++ [specEntityCall c] ∧
    ∀ ent, (step oracle st c).2 = Except.ok ent →
      (step oracle st c).1.msp = st.msp ++ [ent] ∧
      ent = { call := specEntityCall c, color := c.colorOf } := by
  rw [step_char oracle st c hc]
  by_cases ho : oracle (specEntityCall c)
  · rw [if_pos ho]
    refine ⟨rfl, ?_⟩
    intro ent hent
    injection hent with h1
    rw [← h1]
    exact ⟨rfl, rfl⟩
  · rw [if_neg ho]
    refine ⟨rfl, ?_⟩
    intro ent hent
    exact absurd hent (by simp)

/-- Witness for C2 on a concrete closed polygon invocation. -/
theorem one_entity_call_per_invocation_witness :
    (step (fun _ => true) GenState.init
      (Call.polygon [(0, 0), (1, 0)] true colors.RED)).1.issued =
      GenState.init.issued ++
        [specEntityCall (Call.polygon [(0, 0), (1, 0)] true colors.RED)] ∧
    ∀ ent, (step (fun _ => true) GenState.init
        (Call.polygon [(0, 0), (1, 0)] true colors.RED)).2 = Except.ok ent →
      (step (fun _ => true) GenState.init
        (Call.polygon [(0, 0), (1, 0)] true colors.RED)).1.msp =
        GenState.init.msp ++ [ent] ∧
      ent = { call := specEntityCall (Call.polygon [(0, 0), (1, 0)] true colors.RED),
              color := (Call.polygon [(0, 0), (1, 0)] true colors.RED).colorOf } :=
  one_entity_call_per_invocation (fun _ => true) GenState.init
    (Call.polygon [(0, 0), (1, 0)] true colors.RED)
    (by intro pts col hEq; cases hEq; simp)

/-- C2 counterexample: `add_polygon` on the empty list with `closed` true
raises before reaching the library, even when the library accepts every
call; the invocation issues no entity-creation call (the state, including
the `issued` trace, is unchanged). -/
theorem add_polygon_empty_closed_issues_no_call :
    DXFGenerator.add_polygon (fun _ => true) GenState.init [] true colors.WHITE =
      (GenState.init, Except.error PyError.indexError) := rfl

/-- C6 (amended): except for `add_polygon` on an empty list with `closed`
true, the wrapper performs no input validation of its own: any exception a
primitive invocation raises is one raised inside the wrapped library call,
never the wrapper's own `IndexError`. -/
theorem wrapper_raises_no_own_error (oracle : Oracle) (st : GenState) (c : Call)
    (hc : ∀ pts col, c = Call.polygon pts true col → pts ≠ []) :
    (step oracle st c).2 ≠ Except.error PyError.indexError := by
  rw [step_char oracle st c hc]
  by_cases ho : oracle (specEntityCall c)
  · rw [if_pos ho]
    simp
  · rw [if_neg ho]
    simp

/-- Witness for C6: a rejected library call raises, but not the wrapper's
`IndexError`. -/
theorem wrapper_raises_no_own_error_witness :
    (step (fun _ => false) GenState.init (Call.circle (0, 0) 5 colors.GREEN)).2 ≠
      Except.error PyError.indexError :=
  wrapper_raises_no_own_error (fun _ => false) GenState.init
    (Call.circle (0, 0) 5 colors.GREEN) (by intro pts col hEq; cases hEq)

/-- C6 counterexample: `add_polygon` on the empty list with `closed` true
raises the wrapper's own `IndexError` (from `points[0]`), not a library
error, for every library behaviour. -/
theorem add_polygon_empty_closed_raises_wrapper_error :
    (DXFGenerator.add_polygon (fun _ => true) GenState.init ([] : List Point) true
      colors.WHITE).2 = Except.error PyError.indexError := rfl

/-- C8: `add_rectangle` always issues an `add_lwpolyline` call (with the
five-point corner sequence) and any entity it returns is that LWPolyline;
any entity `add_polygon` successfully creates is likewise an LWPolyline,
and its creation call is the one the invocation issued. -/
theorem lwpolyline_for_rectangles_and_polygons :
    (∀ (oracle : Oracle) (st : GenState) (corner1 corner2 : Point) (color : Nat),
      (DXFGenerator.add_rectangle oracle st corner1 corner2 color).1.issued =
        st.issued ++ [EntityCall.lwpolyline (rectanglePoints corner1 corner2)] ∧
      ∀ ent, (DXFGenerator.add_rectangle oracle st corner1 corner2 color).2 =
          Except.ok ent →
        ent.call = EntityCall.lwpolyline (rectanglePoints corner1 corner2)) ∧
    (∀ (oracle : Oracle) (st : GenState) (points : List Point) (closed : Bool)
        (color : Nat) (ent : Entity),
      (DXFGenerator.add_polygon oracle st points closed color).2 = Except.ok ent →
      ∃ pts, ent.call = EntityCall.lwpolyline pts ∧
        (DXFGenerator.add_polygon oracle st points closed color).1.issued =
          st.issued ++ [EntityCall.lwpolyline pts]) := by
  constructor
  · intro oracle st corner1 corner2 color
    by_cases ho : oracle (EntityCall.lwpolyline (rectanglePoints corner1 corner2))
    · rw [DXFGenerator.add_rectangle, addPrimitive_char, if_pos ho]
      refine ⟨rfl, ?_⟩
      intro ent hent
      injection hent with h1
      rw [← h1]
    · rw [DXFGenerator.add_rectangle, addPrimitive_char, if_neg ho]
      refine ⟨rfl, ?_⟩
      intro ent hent
      exact absurd hent (by simp)
  · intro oracle st points closed color ent hent
    have h' : DXFGenerator.add_polygon oracle st points closed color =
        ((DXFGenerator.add_polygon oracle st points closed color).1, Except.ok ent) := by
      rw [← hent]
    obtain ⟨pts, _, hent2, hiss, _, _⟩ :=
      add_polygon_ok oracle st points closed color _ ent h'
    exact ⟨pts, by rw [hent2], hiss⟩

/-- Witness for C8 at a concrete rectangle invocation. -/
theorem lwpolyline_for_rectangles_and_polygons_witness :
    ((DXFGenerator.add_rectangle (fun _ => true) GenState.init (0, 0) (2, 1)
        colors.BLUE).2 =
      Except.ok { call := EntityCall.lwpolyline (rectanglePoints (0, 0) (2, 1)),
                  color := colors.BLUE }) ∧
    ({ call := EntityCall.lwpolyline (rectanglePoints (0, 0) (2, 1)),
       color := colors.BLUE } : Entity).call =
      EntityCall.lwpolyline (rectanglePoints (0, 0) (2, 1)) :=
  ⟨rfl, (lwpolyline_for_rectangles_and_polygons.1 (fun _ => true) GenState.init
    (0, 0) (2, 1) colors.BLUE).2 _ rfl⟩

/-- C9: a primitive invocation that raises leaves `drawing_elements`
unchanged (the record is appended only after the library call succeeds),
and consequently the record list and the modelspace always have the same
number of elements after any call sequence on a fresh generator. -/
theorem record_appended_only_on_success :
    (∀ (oracle : Oracle) (st : GenState) (c : Call) (st1 : GenState) (e : PyError),
      step oracle st c = (st1, Except.error e) →
      st1.drawing_elements = st.drawing_elements) ∧
    (∀ (oracle : Oracle) (calls : List Call),
      (runCalls oracle GenState.init calls).1.msp.length =
        (runCalls oracle GenState.init calls).1.drawing_elements.length) := by
  constructor
  · intro oracle st c st1 e h
    exact (step_error_state oracle st c st1 e h).1
  · intro oracle calls
    exact runCalls_len oracle calls GenState.init rfl

/-- Witness for C9: a failing library call on a fresh generator leaves the
record list unchanged. -/
theorem record_appended_only_on_success_witness :
    (step (fun _ => false) GenState.init (Call.line (0, 0) (1, 1) colors.WHITE) =
      ({ issued := [EntityCall.line (0, 0) (1, 1)], msp := [], drawing_elements := [] },
       Except.error PyError.libraryError)) ∧
    ({ issued := [EntityCall.line (0, 0) (1, 1)], msp := [],
       drawing_elements := [] } : GenState).drawing_elements =
      GenState.init.drawing_elements :=
  ⟨rfl, record_appended_only_on_success.1 (fun _ => false) GenState.init
    (Call.line (0, 0) (1, 1) colors.WHITE) _ PyError.libraryError rfl⟩

/-- C3 (amended): the PNG rendering depends only on the recorded element
list and the figure parameters, not on the CAD document: states with equal
`drawing_elements` give identical `save_png` output; and the rendering loop
issues exactly one plotting call per record, selected by the record's type
tag and rendering the geometry stored in the record, except that a spline
record with fewer than two control points issues none. -/
theorem save_png_one_call_per_record :
    (∀ (st1 st2 : GenState) (fn : PyStr) (w h dpi : Nat),
      st1.drawing_elements = st2.drawing_elements →
      DXFGenerator.save_png st1 fn w h dpi = DXFGenerator.save_png st2 fn w h dpi) ∧
    (∀ start end_ c, renderElement (Element.line start end_ c) =
      Except.ok [PlotCmd.plot [start.1, end_.1] [start.2, end_.2]
        (color_to_matplotlib c)]) ∧
    (∀ center radius c, renderElement (Element.circle center radius c) =
      Except.ok [PlotCmd.add_circle center radius (color_to_matplotlib c)]) ∧
    (∀ corner1 corner2 c, renderElement (Element.rectangle corner1 corner2 c) =
      Except.ok [PlotCmd.add_rect (min corner1.1 corner2.1, min corner1.2 corner2.2)
        (abs (corner2.1 - corner1.1)) (abs (corner2.2 - corner1.2))
        (color_to_matplotlib c)]) ∧
    (∀ pts closed c, pts ≠ [] → renderElement (Element.polygon pts closed c) =
      Except.ok [PlotCmd.add_polygon_patch
        (pts ++ (if closed = true ∧ pts.head? ≠ pts.getLast? then pts.head?.toList
                 else []))
        (color_to_matplotlib c)]) ∧
    (∀ center radius a1 a2 c, renderElement (Element.arc center radius a1 a2 c) =
      Except.ok [PlotCmd.add_arc center (2 * radius) (2 * radius) 0 a1 a2
        (color_to_matplotlib c)]) ∧
    (∀ t pos ht c, renderElement (Element.text t pos ht c) =
      Except.ok [PlotCmd.text pos t
        (if t.startsWith "(" && t.contains ',' && t.endsWith ")" then ht * 2.4
         else ht * 4)
        (color_to_matplotlib c)]) ∧
    (∀ cps c, 1 < cps.length → renderElement (Element.spline cps c) =
      Except.ok [PlotCmd.plot (cps.map Prod.fst) (cps.map Prod.snd)
        (color_to_matplotlib c)]) ∧
    (∀ cps c, cps.length ≤ 1 →
      renderElement (Element.spline cps c) = Except.ok ([] : List PlotCmd)) := by
  refine ⟨?_, fun start end_ c => rfl, fun center radius c => rfl,
    fun corner1 corner2 c => rfl, ?_, fun center radius a1 a2 c => rfl,
    fun t pos ht c => rfl, ?_, ?_⟩
  · intro st1 st2 fn w h dpi hdraw
    simp only [DXFGenerator.save_png, hdraw]
  · intro pts closed c hne
    rcases pts with _ | ⟨p0, rest⟩
    · exact absurd rfl hne
    · cases closed with
      | false => simp [renderElement, Element.color]
      | true =>
        cases hl : (p0 :: rest).getLast? with
        | none => exact absurd (List.getLast?_eq_none_iff.mp hl) (by simp)
        | some plast =>
          by_cases hpe : p0 = plast
          · subst hpe
            simp [renderElement, Element.color, hl]
          · simp [renderElement, Element.color, hl, hpe]
  · intro cps c hlen
    simp [renderElement, Element.color, hlen]
  · intro cps c hlen
    simp [renderElement, Element.color, Nat.not_lt.mpr hlen]

/-- Witness for C3 at a concrete short spline record. -/
theorem save_png_one_call_per_record_witness :
    (([((1 : ℚ), (2 : ℚ))] : List Point).length ≤ 1) ∧
    renderElement (Element.spline [((1 : ℚ), 2)] colors.GREEN) =
      Except.ok ([] : List PlotCmd) :=
  ⟨by decide, save_png_one_call_per_record.2.2.2.2.2.2.2.2 [((1 : ℚ), 2)]
    colors.GREEN (by decide)⟩

/-- C3 counterexample: `drawing_elements` holding one spline record with a
single control point produces zero plotting calls, refuting "exactly one
plotting call per record". -/
theorem spline_record_renders_no_call :
    renderElements [Element.spline [((1 : ℚ), 2)] colors.WHITE] =
      Except.ok ([] : List PlotCmd) := rfl

/-- C4: for `points = n ≥ 1`, `create_star` computes exactly `2*n`
vertices, vertex `k` lying at angle `k*(pi/n) - pi/2` at distance
`outer_radius` for even `k` and `inner_radius` for odd `k` from the centre,
and adds them as one closed polygon via `add_polygon`. -/
theorem create_star_spec (M : PyMath) (oracle : Oracle) (st : GenState)
    (cx cy outer_radius inner_radius : ℚ) (n : Nat) (color : Nat) (hn : 1 ≤ n) :
    (star_points M (cx, cy) outer_radius inner_radius n).length = 2 * n ∧
    (∀ k : Nat, k < 2 * n →
      (star_points M (cx, cy) outer_radius inner_radius n)[k]? =
        some (cx + (if k % 2 = 0 then outer_radius else inner_radius) *
                M.cos ((k : ℚ) * (M.pi / (n : ℚ)) - M.pi / 2),
              cy + (if k % 2 = 0 then outer_radius else inner_radius) *
                M.sin ((k : ℚ) * (M.pi / (n : ℚ)) - M.pi / 2))) ∧
    DXFGenerator.create_star M oracle st (cx, cy) outer_radius inner_radius n color =
      DXFGenerator.add_polygon oracle st
        (star_points M (cx, cy) outer_radius inner_radius n) true color := by
  refine ⟨by simp [star_points, Nat.mul_comm], ?_, rfl⟩
  intro k hk
  have hk2 : k < n * 2 := by omega
  have hn0 : (n : ℚ) ≠ 0 := Nat.cast_ne_zero.mpr (by omega)
  have hangle : (k : ℚ) * (2 * M.pi / ((n * 2 : Nat) : ℚ)) - M.pi / 2 =
      (k : ℚ) * (M.pi / (n : ℚ)) - M.pi / 2 := by
    push_cast
    field_simp
    ring
  simp only [star_points, List.getElem?_map, List.getElem?_range hk2,
    Option.map_some']
  rw [hangle]

/-- Witness for C4 at `n = 1` with a concrete abstract math module. -/
theorem create_star_spec_witness :
    (1 ≤ 1) ∧
    (star_points { pi := 1, cos := fun x => x, sin := fun x => x }
      (0, 0) 3 2 1).length = 2 * 1 :=
  ⟨Nat.le_refl 1,
    (create_star_spec { pi := 1, cos := fun x => x, sin := fun x => x }
      (fun _ => true) GenState.init 0 0 3 2 1 colors.WHITE (Nat.le_refl 1)).1⟩

/-- C10: heap-level, `add_polygon` never writes to any existing list cell
(in particular not to the caller's list); on success the record stores a
freshly allocated copy of the original unclosed points, the copy's contents
equal the caller's list at call time, a later overwrite of the caller's
list leaves the stored copy unchanged, and the list handed to the library
is the (possibly closed) point list. -/
theorem add_polygon_never_mutates_caller (h : PyHeap) (pointsRef : Nat)
    (closed : Bool) (href : pointsRef < h.cells.length) :
    (∀ r, r < h.cells.length →
      (add_polygon_heap h pointsRef closed).1.read r = h.read r) ∧
    (∀ origRef libPts,
      (add_polygon_heap h pointsRef closed).2 = Except.ok (origRef, libPts) →
      origRef ≠ pointsRef ∧
      (add_polygon_heap h pointsRef closed).1.read origRef = h.read pointsRef ∧
      (∀ v, ((add_polygon_heap h pointsRef closed).1.write pointsRef v).read origRef =
        h.read pointsRef) ∧
      libPts = specPolygonPoints (h.read pointsRef) closed) := by
  have hheap : (add_polygon_heap h pointsRef closed).1 =
      { cells := h.cells ++ [h.read pointsRef] } := by
    cases closed with
    | false => rfl
    | true =>
      cases hhd : (h.read pointsRef).head? with
      | none => simp [add_polygon_heap, PyHeap.alloc, hhd]
      | some p0 =>
        cases hl : (h.read pointsRef).getLast? with
        | none => simp [add_polygon_heap, PyHeap.alloc, hhd, hl]
        | some plast => simp [add_polygon_heap, PyHeap.alloc, hhd, hl]
  have hread_lo : ∀ r, r < h.cells.length →
      (add_polygon_heap h pointsRef closed).1.read r = h.read r := by
    intro r hr
    rw [hheap]
    simp only [PyHeap.read, List.getD_eq_getElem?_getD]
    rw [List.getElem?_append_left hr]
  have hread_new : (add_polygon_heap h pointsRef closed).1.read h.cells.length =
      h.read pointsRef := by
    rw [hheap]
    simp only [PyHeap.read, List.getD_eq_getElem?_getD]
    rw [List.getElem?_append_right (Nat.le_refl h.cells.length)]
    simp
  have hwrite_new : ∀ v,
      ((add_polygon_heap h pointsRef closed).1.write pointsRef v).read h.cells.length =
      h.read pointsRef := by
    intro v
    rw [hheap]
    simp only [PyHeap.read, PyHeap.write, List.getD_eq_getElem?_getD]
    rw [List.getElem?_set_ne (by omega)]
    rw [List.getElem?_append_right (Nat.le_refl h.cells.length)]
    simp
  refine ⟨hread_lo, ?_⟩
  intro origRef libPts hok
  have hshape : (add_polygon_heap h pointsRef closed).2 =
      Except.ok (h.cells.length, specPolygonPoints (h.read pointsRef) closed) ∨
      (add_polygon_heap h pointsRef closed).2 = Except.error PyError.indexError := by
    cases closed with
    | false =>
      left
      cases hpts : h.read pointsRef with
      | nil => simp [add_polygon_heap, PyHeap.alloc, hpts, specPolygonPoints]
      | cons p0 rest => simp [add_polygon_heap, PyHeap.alloc, hpts, specPolygonPoints]
    | true =>
      cases hpts : h.read pointsRef with
      | nil =>
        right
        simp [add_polygon_heap, PyHeap.alloc, hpts]
      | cons p0 rest =>
        left
        cases hl : (p0 :: rest).getLast? with
        | none => exact absurd (List.getLast?_eq_none_iff.mp hl) (by simp)
        | some plast =>
          by_cases hpe : p0 = plast
          · subst hpe
            simp [add_polygon_heap, PyHeap.alloc, hpts, hl, specPolygonPoints]
          · simp [add_polygon_heap, PyHeap.alloc, hpts, hl, hpe, specPolygonPoints,
              Ne.symm]
  rcases hshape with hsh | hsh
  · rw [hsh] at hok
    injection hok with hpair
    injection hpair with h1 h2
    subst h1
    subst h2
    exact ⟨by omega, hread_new, hwrite_new, rfl⟩
  · rw [hsh] at hok
    exact Except.noConfusion hok

/-- Witness for C10 at a concrete one-cell heap. -/
theorem add_polygon_never_mutates_caller_witness :
    ((0 : Nat) < ({ cells := [[(0, 0), (1, 0)]] } : PyHeap).cells.length) ∧
    (∀ r, r < ({ cells := [[(0, 0), (1, 0)]] } : PyHeap).cells.length →
      (add_polygon_heap { cells := [[(0, 0), (1, 0)]] } 0 true).1.read r =
        ({ cells := [[(0, 0), (1, 0)]] } : PyHeap).read r) :=
  ⟨by decide,
    (add_polygon_never_mutates_caller { cells := [[(0, 0), (1, 0)]] } 0 true
      (by decide)).1⟩

/-- C5: for every positive spacing, `create_grid` (with a library that
accepts every call) succeeds and appends, in source order: a vertical line
of length `height` at every tick `x` of the x loop, a horizontal line of
length `width` at every tick `y` of the y loop, and, when
`show_coordinates` is set, a label `"(x,y)"` (the coordinates formatted by
`fmt`) offset by `0.05 * spacing` in each axis at every intersection whose
offset position stays within the grid boundaries; and the ticks of a loop
starting at `x0` with bound `bound` are exactly the points `x0 + k *
spacing` (k natural) that do not exceed the bound. -/
theorem create_grid_spec (fmt : ℚ → String) (w h s : ℚ) (xo yo : ℚ) (color : Nat)
    (sc : Bool) (th : ℚ) (st : GenState) (hs : 0 < s) :
    ((DXFGenerator.create_grid fmt (fun _ => true) st w h s (xo, yo) color sc th).2 =
        Except.ok () ∧
      (DXFGenerator.create_grid fmt (fun _ => true) st w h s (xo, yo) color
          sc th).1.drawing_elements =
        st.drawing_elements
          ++ (gridTicks xo (xo + w) s).map
              (fun x => Element.line (x, yo) (x, yo + h) color)
          ++ (gridTicks yo (yo + h) s).map
              (fun y => Element.line (xo, y) (xo + w, y) color)
          ++ (if sc then
                (gridTicks xo (xo + w) s).flatMap (fun x =>
                  (gridTicks yo (yo + h) s).filterMap (fun y =>
                    if x + s * 0.05 ≤ xo + w ∧ y + s * 0.05 ≤ yo + h then
                      some (Element.text ("(" ++ fmt x ++ "," ++ fmt y ++ ")")
                        (x + s * 0.05, y + s * 0.05) th colors.RED)
                    else none))
              else [])) ∧
    (∀ x0 bound t : ℚ, t ∈ gridTicks x0 bound s ↔
      ∃ k : ℕ, t = x0 + (k : ℚ) * s ∧ t ≤ bound) := by
  have hgood : ∀ c ∈ grid_calls fmt w h s (xo, yo) color sc th,
      ∀ pts col, c = Call.polygon pts true col → pts ≠ [] := by
    intro c hc pts col heq
    subst heq
    exfalso
    simp only [grid_calls, List.mem_append] at hc
    rcases hc with (hc | hc) | hc
    · obtain ⟨x, _, hx⟩ := List.mem_map.mp hc
      exact Call.noConfusion hx
    · obtain ⟨y, _, hy⟩ := List.mem_map.mp hc
      exact Call.noConfusion hy
    · split at hc
      · obtain ⟨x, _, hx2⟩ := List.mem_flatMap.mp hc
        obtain ⟨y, _, hy2⟩ := List.mem_filterMap.mp hx2
        split at hy2
        · exact Call.noConfusion (Option.some.inj hy2)
        · exact Option.noConfusion hy2
      · simp at hc
  obtain ⟨hok, hdraw⟩ :=
    runCalls_trueOracle_ok (grid_calls fmt w h s (xo, yo) color sc th) st hgood
  refine ⟨⟨hok, ?_⟩, fun x0 bound t => mem_gridTicks s hs x0 bound t⟩
  show (runCalls (fun _ => true) st
      (grid_calls fmt w h s (xo, yo) color sc th)).1.drawing_elements = _
  rw [hdraw]
  simp only [grid_calls, List.map_append, List.map_map, List.map_flatMap,
    List.map_filterMap, Function.comp_def, recordOf, apply_ite (List.map recordOf),
    apply_ite (Option.map recordOf), Option.map_some', Option.map_none',
    List.map_nil, List.append_assoc]

/-- Witness for C5 at spacing 1 on a 2-by-2 grid without labels. -/
theorem create_grid_spec_witness :
    ((DXFGenerator.create_grid (fun _ => "") (fun _ => true) GenState.init
        2 2 1 (0, 0) colors.GRAY false 1).2 = Except.ok () ∧
      (DXFGenerator.create_grid (fun _ => "") (fun _ => true) GenState.init
          2 2 1 (0, 0) colors.GRAY false 1).1.drawing_elements =
        GenState.init.drawing_elements
          ++ (gridTicks 0 (0 + 2) 1).map
              (fun x => Element.line (x, 0) (x, 0 + 2) colors.GRAY)
          ++ (gridTicks 0 (0 + 2) 1).map
              (fun y => Element.line (0, y) (0 + 2, y) colors.GRAY)
          ++ []) ∧
    (∀ x0 bound t : ℚ, t ∈ gridTicks x0 bound 1 ↔
      ∃ k : ℕ, t = x0 + (k : ℚ) * 1 ∧ t ≤ bound) :=
  create_grid_spec (fun _ => "") 2 2 1 0 0 colors.GRAY false 1 GenState.init
    (by norm_num)

/-- C7: for every filename and every generator state reached by a
successful call sequence, `save` writes the DXF document under a name
ending in `'.dxf'` (the extension appended when absent), and writes the PNG
rasterisation of the recorded scene exactly when the `save_png` flag is
set, under the name derived from the DXF name by replacing `'.dxf'` with
`'.png'`. -/
theorem save_writes_dxf_and_png (oracle : Oracle) (calls : List Call) (st : GenState)
    (filename : PyStr) (flag : Bool) (pw ph pd : Nat)
    (hreach : runCalls oracle GenState.init calls = (st, Except.ok ())) :
    renderElements st.drawing_elements =
      Except.ok ((renderElements st.drawing_elements).toOption.getD []) ∧
    DXFGenerator.save st filename flag pw ph pd =
      (FileOutput.dxf (dxfName filename) st.msp ::
        (if flag then
          [FileOutput.png (ensurePng (pyReplace (dxfName filename) dxfExt pngExt))
            pw ph pd ((renderElements st.drawing_elements).toOption.getD [])]
         else []),
       Except.ok ()) ∧
    dxfExt.isSuffixOf (dxfName filename) = true := by
  have h0 : WFRecords GenState.init.drawing_elements := by
    intro pts closed c hm
    simp [GenState.init] at hm
  have hwf : WFRecords st.drawing_elements := by
    have hrw := runCalls_WF oracle calls GenState.init h0
    rw [hreach] at hrw
    exact hrw
  have hrender := renderElements_ok_eq st.drawing_elements hwf
  refine ⟨hrender, ?_, ?_⟩
  · cases flag with
    | false => simp [DXFGenerator.save, dxfName]
    | true =>
      obtain ⟨cmds, hcm⟩ := renderElements_ok st.drawing_elements hwf
      simp only [DXFGenerator.save, DXFGenerator.save_png, hcm]
      simp [dxfName, Except.toOption]
  · rw [dxfName]
    split
    · assumption
    · simp [List.isSuffixOf_iff_suffix]

/-- Witness for C7 on a fresh generator and the filename `"hi"`. -/
theorem save_writes_dxf_and_png_witness :
    renderElements GenState.init.drawing_elements =
      Except.ok ((renderElements GenState.init.drawing_elements).toOption.getD []) ∧
    DXFGenerator.save GenState.init ['h', 'i'] true 12 8 300 =
      (FileOutput.dxf (dxfName ['h', 'i']) GenState.init.msp ::
        (if true then
          [FileOutput.png (ensurePng (pyReplace (dxfName ['h', 'i']) dxfExt pngExt))
            12 8 300 ((renderElements GenState.init.drawing_elements).toOption.getD [])]
         else []),
       Except.ok ()) ∧
    dxfExt.isSuffixOf (dxfName ['h', 'i']) = true :=
  save_writes_dxf_and_png (fun _ => true) [] GenState.init ['h', 'i'] true 12 8 300 rfl
